import Mathlib

/-!
Verification of the eink_art_gallery core: profile store
(display_config_manager.py, display_config.py), image selection
(eink_endpoints.py) and the image transform pipeline (image_utils.py),
shallowly embedded in Lean.
-/

namespace EinkGallery

/-- RGB color triple; each channel is 0-255 in valid data. -/
abbrev RGB := ℕ × ℕ × ℕ

/-! ## YAML values (the results of yaml.safe_load) -/

/-- A parsed YAML document, as produced by yaml.safe_load. -/
inductive Yaml where
  | null : Yaml
  | bool (b : Bool) : Yaml
  | int (n : ℤ) : Yaml
  | str (s : String) : Yaml
  | list (xs : List Yaml) : Yaml
  | map (kvs : List (String × Yaml)) : Yaml

/-- Python truthiness of a YAML value (empty collections, 0, empty string,
None and False are falsy). -/
def yamlTruthy : Yaml → Bool
  | .null => false
  | .bool b => b
  | .int n => n != 0
  | .str s => !s.isEmpty
  | .list xs => !xs.isEmpty
  | .map kvs => !kvs.isEmpty

/-- Python membership test on a mapping value. The config checks below only
exercise it on mappings. -/
def yamlHasKey (y : Yaml) (k : String) : Bool :=
  match y with
  | .map kvs => (kvs.lookup k).isSome
  | _ => false

/-- dict.get with a default, on a mapping value. -/
def yamlGetD (y : Yaml) (k : String) (dflt : Yaml) : Yaml :=
  match y with
  | .map kvs => (kvs.lookup k).getD dflt
  | _ => dflt

/-- The checks of DisplayConfig.init (display_config.py): resolution is
truthy and carries width and height keys, and color_mapping is truthy and
carries a palette key. The constructor raises ValueError otherwise. -/
def displayConfigStructValid (configData : Yaml) : Bool :=
  let resolution := yamlGetD configData "resolution" (.map [])
  let colorMapping := yamlGetD configData "color_mapping" (.map [])
  (yamlTruthy resolution && yamlHasKey resolution "width"
      && yamlHasKey resolution "height")
    && (yamlTruthy colorMapping && yamlHasKey colorMapping "palette")

/-- One 0-255 integer channel value. -/
def yamlIsByte : Yaml → Bool
  | .int n => decide (0 ≤ n ∧ n ≤ 255)
  | _ => false

/-- One RGB triple written as a 3-element YAML list of 0-255 integers. -/
def yamlIsRgbTriple : Yaml → Bool
  | .list [r, g, b] => yamlIsByte r && yamlIsByte g && yamlIsByte b
  | _ => false

/-- Modelled from the spec: the ProfileModel invariants (width>0, height>0,
non-empty palette of 0-255 RGB triples). No function in the repository
checks these; this definition is the comparison point for the claim that
save validates them. -/
def profileModelInvariants (configData : Yaml) : Bool :=
  let resolution := yamlGetD configData "resolution" (.map [])
  let palette := yamlGetD (yamlGetD configData "color_mapping" (.map []))
      "palette" .null
  match yamlGetD resolution "width" .null,
        yamlGetD resolution "height" .null, palette with
  | .int w, .int h, .list ps =>
      decide (0 < w) && decide (0 < h) && !ps.isEmpty
        && ps.all yamlIsRgbTriple
  | _, _, _ => false

/-! ## Profile store (display_config_manager.py)

The two storage tiers are modelled as association lists from display name to
raw file content; the external YAML loader (PyYAML) is passed in as a
function, none modelling a YAMLError. Timestamps (datetime.now) are passed
in explicitly. -/

/-- Profile-store state: default tier (read-only directory) and override
tier (persistent directory). -/
structure Store where
  defaults : List (String × String)
  overrides : List (String × String)
deriving DecidableEq

/-- Errors raised by the manager: FileNotFoundError, ValueError on YAML,
ValueError on the name check, ValueError or FileExistsError on a name
collision. -/
inductive StoreErr where
  | notFound | invalidConfig | invalidName | alreadyExists
deriving DecidableEq

/-- Result metadata returned by save, duplicate and import. -/
structure SaveInfo where
  displayName : String
  isCustom : Bool
  modifiedAt : Option ℕ
deriving DecidableEq

/-- Overwrite the entry for one key (file-write semantics). -/
def setKey (k v : String) (l : List (String × String)) :
    List (String × String) :=
  (k, v) :: l.filter (fun p => p.1 != k)

/-- get_display_config_file plus the file read: the override tier wins,
else the default tier. -/
def resolveConfig (st : Store) (name : String) : Option String :=
  match st.overrides.lookup name with
  | some c => some c
  | none => st.defaults.lookup name

/-- load_display_config: resolved raw content; FileNotFoundError when the
name is absent from both tiers. -/
def loadDisplayConfig (st : Store) (name : String) : Except StoreErr String :=
  match resolveConfig st name with
  | some c => .ok c
  | none => .error .notFound

/-- save_display_config: validates only that the content parses as YAML
(yaml.safe_load), then writes into the override tier unconditionally and
reports is_custom with a fresh modified_at. -/
def saveDisplayConfig (safeLoad : String → Option Yaml) (st : Store)
    (name content : String) (now : ℕ) : Except StoreErr (Store × SaveInfo) :=
  match safeLoad content with
  | none => .error .invalidConfig
  | some _ =>
      .ok ({ st with overrides := setKey name content st.overrides },
           { displayName := name, isCustom := true, modifiedAt := some now })

/-- ASCII fragment of Python str.isalnum on one character. Full Python also
accepts non-ASCII Unicode alphanumerics; the theorems below restrict
themselves to ASCII strings where this model is exact. -/
def asciiAlnum (c : Char) : Bool :=
  (('A' ≤ c && c ≤ 'Z') || ('a' ≤ c && c ≤ 'z') || ('0' ≤ c && c ≤ '9'))

/-- str.isalnum: non-empty and every character alphanumeric. -/
def pyIsAlnum (s : List Char) : Bool :=
  !s.isEmpty && s.all asciiAlnum

/-- The name check of duplicate_display_config and import_display_config:
the name is rejected when it is falsy or when the name with all
underscores and hyphens removed fails isalnum. -/
def validDisplayName (s : String) : Bool :=
  !s.data.isEmpty && pyIsAlnum (s.data.filter (fun c => c != '_' && c != '-'))

/-- The identifier pattern [A-Za-z0-9_-]+ as written in the spec. -/
def specIdentPattern (s : String) : Bool :=
  !s.data.isEmpty && s.data.all (fun c => asciiAlnum c || c == '_' || c == '-')

/-- duplicate_display_config. Checks in source order: the new name
(ValueError), source resolution (FileNotFoundError), an existing override
for the new name (ValueError). On success the resolved source content is
copied verbatim into the override tier. -/
def duplicateDisplayConfig (st : Store) (sourceName newName : String)
    (now : ℕ) : Except StoreErr (Store × SaveInfo) :=
  if !validDisplayName newName then .error .invalidName
  else
    match resolveConfig st sourceName with
    | none => .error .notFound
    | some content =>
        if (st.overrides.lookup newName).isSome then .error .alreadyExists
        else
          .ok ({ st with overrides := setKey newName content st.overrides },
               { displayName := newName, isCustom := true,
                 modifiedAt := some now })

/-- import_display_config: the filename must end in ".yaml"; the derived
name passes the same validDisplayName check as duplicate; an existing
override without overwrite raises FileExistsError; the content must parse
as YAML; then the override tier is written. -/
def importDisplayConfig (safeLoad : String → Option Yaml) (st : Store)
    (filename content : String) (overwrite : Bool) (now : ℕ) :
    Except StoreErr (Store × SaveInfo) :=
  if !filename.endsWith ".yaml" then .error .invalidName
  else
    let displayName := filename.dropRight 5
    if !validDisplayName displayName then .error .invalidName
    else if (st.overrides.lookup displayName).isSome && !overwrite then
      .error .alreadyExists
    else
      match safeLoad content with
      | none => .error .invalidConfig
      | some _ =>
          .ok ({ st with overrides := setKey displayName content st.overrides },
               { displayName := displayName, isCustom := true,
                 modifiedAt := some now })

/-- A concrete loader fragment for witnesses: parses exactly the document
"foo: bar". -/
def safeLoadEx (s : String) : Option Yaml :=
  if s = "foo: bar" then some (.map [("foo", .str "bar")]) else none

/-! ## Image selection (eink_endpoints.py)

The metadata collaborator returns an ordered list of image records whose
tags arrive duck-typed: a bare string, a dict with a name key, a dict with
a tag key, or some other shape. A missing tags query parameter is modelled
as the empty string (both are falsy in Python). -/

/-- One tag as stored in image metadata. -/
inductive PyTag where
  | str (s : String)
  | dictName (s : String)
  | dictTag (s : String)
  | other
deriving DecidableEq

/-- One record from gallery.get_images(). -/
structure ImageRec where
  filename : String
  tags : List PyTag
deriving DecidableEq

/-- ASCII model of str.lower (the tag values exercised here are ASCII). -/
def pyLower (s : List Char) : List Char :=
  s.map Char.toLower

/-- ASCII whitespace, for the str.strip model. -/
def pySpace (c : Char) : Bool :=
  c = ' ' || c = '\t' || c = '\n' || c = '\r'

/-- str.strip: drop whitespace from both ends. -/
def pyStrip (s : List Char) : List Char :=
  ((s.dropWhile pySpace).reverse.dropWhile pySpace).reverse

/-- str.split on a comma separator; the empty string yields one empty
field, matching Python. -/
def pySplitComma : List Char → List (List Char)
  | [] => [[]]
  | c :: rest =>
      let r := pySplitComma rest
      if c = ',' then [] :: r
      else (c :: r.headD []) :: r.tail

/-- The requested-tags parse: tags_param.split on commas, keeping the
stripped, lowered value of each term whose strip is non-empty. -/
def parseTagsParam (tagsParam : String) : List (List Char) :=
  ((pySplitComma tagsParam.data).filter
      (fun t => !(pyStrip t).isEmpty)).map (fun t => pyLower (pyStrip t))

/-- The tag-normalization loop: strings and dicts with a name or tag key
are lowered, any other shape is dropped. -/
def normalizeTags : List PyTag → List (List Char)
  | [] => []
  | .str s :: rest => pyLower s.data :: normalizeTags rest
  | .dictName s :: rest => pyLower s.data :: normalizeTags rest
  | .dictTag s :: rest => pyLower s.data :: normalizeTags rest
  | .other :: rest => normalizeTags rest

/-- _filter_images_by_tags: keep the images having at least one normalized
tag equal to one of the requested terms (OR semantics). The random
endpoint inlines the identical loop. -/
def filterImagesByTags (images : List ImageRec) (tagsParam : String) :
    List ImageRec :=
  if tagsParam.data.isEmpty then images
  else
    let requestedTags := parseTagsParam tagsParam
    images.filter
      (fun img => requestedTags.any (fun t => (normalizeTags img.tags).contains t))

/-- Selection failures: empty gallery (404), empty tag-filtered set (404),
and a Python IndexError escaping as a 500 (shown below to be unreachable). -/
inductive SelectErr where
  | noImages | notFound | indexError
deriving DecidableEq

/-- The eligible list both selection endpoints operate on: the tag-filtered
list when a tag filter is supplied, else the full collection, in
collaborator order. -/
def eligibleImages (images : List ImageRec) (tagsParam : String) :
    List ImageRec :=
  if !tagsParam.data.isEmpty then filterImagesByTags images tagsParam
  else images

/-- api_get_next_eink_image selection logic: empty-gallery check, tag
filtering, next_index = (current_index + 1) % len(eligible), then list
indexing. Python % with a positive modulus coincides with Int.emod. -/
def selectNextImage (images : List ImageRec) (tagsParam : String)
    (currentIndex : ℤ) : Except SelectErr (ImageRec × ℕ) :=
  if images.isEmpty then .error .noImages
  else
    let chosen := eligibleImages images tagsParam
    if chosen.isEmpty then .error .notFound
    else
      let nextIndex := ((currentIndex + 1) % (chosen.length : ℤ)).toNat
      match chosen[nextIndex]? with
      | some img => .ok (img, nextIndex)
      | none => .error .indexError

/-- api_get_random_eink_image up to the random.choice call: the eligible
list handed to the uniform choice (the choice itself is external). -/
def randomEligibleImages (images : List ImageRec) (tagsParam : String) :
    Except SelectErr (List ImageRec) :=
  if images.isEmpty then .error .noImages
  else
    let chosen := eligibleImages images tagsParam
    if chosen.isEmpty then .error .notFound
    else .ok chosen

/-- Concrete image records for witnesses. -/
def imgRecA : ImageRec :=
  ⟨"a.jpg", []⟩

/-- Second concrete image record. -/
def imgRecB : ImageRec :=
  ⟨"b.jpg", []⟩

/-- Third concrete image record. -/
def imgRecC : ImageRec :=
  ⟨"c.jpg", []⟩

/-- A record tagged winter and city, for the no-match filter witness. -/
def imgRecW : ImageRec :=
  ⟨"w.jpg", [.str "Winter", .dictName "city"]⟩

/-! ## Image model and transform pipeline (image_utils.py, display_config.py)

An image is its dimensions together with a pixel lookup; decode and EXIF
orientation normalization happen upstream of the modelled input. The
external resampling primitives (ImageOps.fit and the LANCZOS resize inside
thumbnail) and the numpy per-pixel gamma pass are taken as function
parameters, since their pixel values live outside the repository; their
geometric behavior (thumbnail size selection, centering, padding,
quantization) is modelled from the code. -/

/-- An RGB raster: width, height, and a pixel lookup (column x, row y). -/
structure Img where
  w : ℕ
  h : ℕ
  px : ℕ → ℕ → RGB

/-- Row-major pixel rows of an image. -/
def rowsOf (img : Img) : List (List RGB) :=
  (List.range img.h).map (fun y => (List.range img.w).map (fun x => img.px x y))

/-- Apply a per-pixel map. -/
def mapPx (f : RGB → RGB) (img : Img) : Img :=
  ⟨img.w, img.h, fun x y => f (img.px x y)⟩

/-- get_palette_image (display_config.py): the configured triples are
flattened and zero-padded to 256 colors (768 channel entries); slot i holds
palette[i] and every trailing slot holds black. Palettes over 256 entries
make putpalette raise and are outside the modelled domain. -/
def buildPaletteTable (palette : List RGB) : List RGB :=
  palette ++ List.replicate (256 - palette.length) (0, 0, 0)

/-- Squared Euclidean RGB distance. -/
def dist2 (a b : RGB) : ℤ :=
  ((a.1 : ℤ) - (b.1 : ℤ)) ^ 2 + ((a.2.1 : ℤ) - (b.2.1 : ℤ)) ^ 2
    + ((a.2.2 : ℤ) - (b.2.2 : ℤ)) ^ 2

/-- Nearest palette-table color by squared RGB distance, earlier slots
winning ties (positional stability). Models the PIL palette lookup used by
Image.quantize. -/
def nearestColor (c : RGB) : List RGB → RGB
  | [] => (0, 0, 0)
  | t :: ts =>
      ts.foldl (fun best cand => if dist2 cand c < dist2 best c then cand else best) t

/-- Clamp an integer channel value to one byte. -/
def clampByte (x : ℤ) : ℕ :=
  (max 0 (min 255 x)).toNat

/-- Signed per-channel quantization error. -/
abbrev Err3 := ℤ × ℤ × ℤ

/-- Add an accumulated error to a pixel, clamping each channel to 0-255. -/
def addErr (p : RGB) (e : Err3) : RGB :=
  (clampByte ((p.1 : ℤ) + e.1), clampByte ((p.2.1 : ℤ) + e.2.1),
   clampByte ((p.2.2 : ℤ) + e.2.2))

/-- Per-channel difference of two colors. -/
def subColor (a b : RGB) : Err3 :=
  ((a.1 : ℤ) - (b.1 : ℤ), (a.2.1 : ℤ) - (b.2.1 : ℤ), (a.2.2 : ℤ) - (b.2.2 : ℤ))

/-- k/16 of an error, per channel (integer arithmetic). -/
def scaleErr (k : ℤ) (e : Err3) : Err3 :=
  (k * e.1 / 16, k * e.2.1 / 16, k * e.2.2 / 16)

/-- Componentwise error sum. -/
def addE (a b : Err3) : Err3 :=
  (a.1 + b.1, a.2.1 + b.2.1, a.2.2 + b.2.2)

/-- Floyd-Steinberg over one row, left to right. errs holds the error
already diffused into this pixel and its right neighbors; pBL and pB hold
the next-row error accumulating under the previous and the current column.
Each pixel is quantized to the nearest table color of its error-adjusted
value, and the quantization error is diffused 7/16 right, 3/16 below-left,
5/16 below, 1/16 below-right. Returns the quantized row and the next-row
errors starting one column left of the row. -/
def fsRow (table : List RGB) :
    List RGB → List Err3 → Err3 → Err3 → (List RGB × List Err3)
  | [], _, pBL, pB => ([], [pBL, pB])
  | p :: ps, errs, pBL, pB =>
      let adjusted := addErr p (errs.headD (0, 0, 0))
      let chosen := nearestColor adjusted table
      let err := subColor adjusted chosen
      let restErrs :=
        match errs.tail with
        | [] => []
        | r :: rs => addE r (scaleErr 7 err) :: rs
      let res := fsRow table ps restErrs (addE pB (scaleErr 5 err)) (scaleErr 1 err)
      (chosen :: res.1, addE pBL (scaleErr 3 err) :: res.2)

/-- Floyd-Steinberg over the rows in raster order, carrying the diffused
errors from each row into the next (the leading below-left slot of the
returned error row belongs to column -1 and is dropped). -/
def fsRows (table : List RGB) : List (List RGB) → List Err3 → List (List RGB)
  | [], _ => []
  | row :: rest, errCur =>
      let res := fsRow table row errCur (0, 0, 0) (0, 0, 0)
      res.1 :: fsRows table rest res.2.tail

/-- Image.quantize against the padded palette table: independent
nearest-color mapping when dither is off, Floyd-Steinberg error diffusion
in raster order when it is on. Output pixels are written as the RGB colors
the produced palette indices stand for. -/
def quantizeRows (table : List RGB) (dither : Bool)
    (rows : List (List RGB)) : List (List RGB) :=
  if dither then fsRows table rows []
  else rows.map (List.map (fun p => nearestColor p table))

/-- Pillow Image.thumbnail target-size selection: the source size is kept
unchanged when it already fits inside the target box (thumbnail never
upscales); otherwise the image shrinks preserving aspect ratio, the free
dimension rounding to whichever of floor and ceil best preserves the
aspect ratio (floor on ties) and never below 1. Pillow float arithmetic is
idealized as exact rationals. -/
def thumbnailSize (sw sh tw th : ℕ) : ℕ × ℕ :=
  if sw ≤ tw ∧ sh ≤ th then (sw, sh)
  else
    let aspect : ℚ := (sw : ℚ) / (sh : ℚ)
    if (tw : ℚ) / (th : ℚ) ≥ aspect then
      let n : ℚ := (th : ℚ) * aspect
      let fl : ℤ := ⌊n⌋
      let ce : ℤ := ⌈n⌉
      let x : ℤ :=
        if |aspect - (fl : ℚ) / (th : ℚ)| ≤ |aspect - (ce : ℚ) / (th : ℚ)|
        then fl else ce
      ((max x 1).toNat, th)
    else
      let n : ℚ := (tw : ℚ) / aspect
      let fl : ℤ := ⌊n⌋
      let ce : ℤ := ⌈n⌉
      let kf : ℚ := if fl = 0 then 0 else |aspect - (tw : ℚ) / (fl : ℚ)|
      let kc : ℚ := if ce = 0 then 0 else |aspect - (tw : ℚ) / (ce : ℚ)|
      let y : ℤ := if kf ≤ kc then fl else ce
      (tw, (max y 1).toNat)

/-- The image thumbnail leaves in place: unchanged when the computed
thumbnail size is the source size (no resize call), else the LANCZOS
resize to the computed size, modelled by resample. -/
def letterboxScaled (resample : Img → ℕ → ℕ → Img) (src : Img)
    (tw th : ℕ) : Img :=
  if thumbnailSize src.w src.h tw th = (src.w, src.h) then src
  else resample src (thumbnailSize src.w src.h tw th).1
    (thumbnailSize src.w src.h tw th).2

/-- The crop=false branch of process_image: thumbnail into the target box,
then paste centered on an opaque black width x height canvas at
((tw - w) // 2, (th - h) // 2). resample models the LANCZOS resize
performed inside thumbnail when the size changes. -/
def letterbox (resample : Img → ℕ → ℕ → Img) (src : Img) (tw th : ℕ) : Img :=
  let scaled := letterboxScaled resample src tw th
  let left := (tw - scaled.w) / 2
  let top := (th - scaled.h) / 2
  { w := tw, h := th,
    px := fun x y =>
      if left ≤ x ∧ x < left + scaled.w ∧ top ≤ y ∧ y < top + scaled.h then
        scaled.px (x - left) (y - top)
      else (0, 0, 0) }

/-- apply_gamma_correction at image level: gamma == 1.0 returns the image
object unchanged (explicit identity, lines 21-22); otherwise the numpy
per-pixel pass (gammaPass) runs. -/
def applyGammaCorrection (gamma : ℚ) (gammaPass : RGB → RGB) (img : Img) : Img :=
  if gamma = 1 then img else mapPx gammaPass img

/-- process_image: geometric step (fill-and-crop via ImageOps.fit, modelled
by fitF, or fit-and-letterbox) when resize is set, gamma stage guarded by
gamma != 1.0, then palette quantization with optional dithering. -/
def processImage (fitF resample : Img → ℕ → ℕ → Img) (gammaPass : RGB → RGB)
    (dither resize crop : Bool) (width height : ℕ) (palette : List RGB)
    (gamma : ℚ) (src : Img) : List (List RGB) :=
  let geo :=
    if resize then
      (if crop then fitF src width height else letterbox resample src width height)
    else src
  let gam := if gamma ≠ 1 then applyGammaCorrection gamma gammaPass geo else geo
  quantizeRows (buildPaletteTable palette) dither (rowsOf gam)

/-- The same pipeline with the gamma stage removed entirely (comparison
point for the gamma == 1.0 claim). -/
def processImageNoGamma (fitF resample : Img → ℕ → ℕ → Img)
    (dither resize crop : Bool) (width height : ℕ) (palette : List RGB)
    (src : Img) : List (List RGB) :=
  let geo :=
    if resize then
      (if crop then fitF src width height else letterbox resample src width height)
    else src
  quantizeRows (buildPaletteTable palette) dither (rowsOf geo)

/-- A geometry-free stand-in for the external resamplers in witnesses:
returns its input unchanged. -/
def constImg : Img → ℕ → ℕ → Img :=
  fun i _ _ => i

/-- A dimension-correct stand-in resampler for witnesses. -/
def resampleStub : Img → ℕ → ℕ → Img :=
  fun _ a b => ⟨a, b, fun _ _ => (0, 0, 0)⟩

/-- A concrete 1 x 1 black source image. -/
def img1 : Img :=
  ⟨1, 1, fun _ _ => (0, 0, 0)⟩

/-- A concrete 100 x 100 uniform gray source image. -/
def img100 : Img :=
  ⟨100, 100, fun _ _ => (7, 7, 7)⟩

/-! ## Gamma correction channel map (image_utils.py, gamma != 1.0 path)

The numpy pass is img_array / 255.0, np.power(img_array, 1.0 / gamma),
* 255.0, astype(np.uint8). Floats are idealized as reals; astype from a
nonnegative float to uint8 truncates toward zero and wraps modulo 256. -/

/-- astype(np.uint8) on a nonnegative float value: truncation toward zero
(floor on nonnegative input) wrapped modulo 256. -/
noncomputable def floatToUint8 (x : ℝ) : ℕ :=
  ⌊x⌋.toNat % 256

/-- apply_gamma_correction on one channel value for gamma != 1.0. -/
noncomputable def gammaChannel (gamma : ℝ) (v : ℕ) : ℕ :=
  floatToUint8 ((((v : ℝ) / 255) ^ (1 / gamma)) * 255)

/-- Modelled from the spec: the channel map as the claim states it,
rounding to the nearest integer and clamping to 0-255. -/
noncomputable def gammaChannelClaimed (gamma : ℝ) (v : ℕ) : ℤ :=
  max 0 (min 255 (round ((((v : ℝ) / 255) ^ (1 / gamma)) * 255)))

/-! ## Theorems -/

/-- C1 (amended): save_display_config validates only YAML well-formedness.
It fails with InvalidConfig exactly when the raw configuration does not
parse, and whenever it parses it writes into the override tier
unconditionally with the fresh modified_at timestamp, after which the name
resolves to the saved content. No structural or ProfileModel-invariant
validation is performed. -/
theorem save_validates_yaml_only (safeLoad : String → Option Yaml)
    (st : Store) (name content : String) (now : ℕ) :
    (saveDisplayConfig safeLoad st name content now = .error .invalidConfig
        ↔ safeLoad content = none)
    ∧ (∀ y, safeLoad content = some y →
        saveDisplayConfig safeLoad st name content now
          = .ok ({ st with overrides := setKey name content st.overrides },
                 { displayName := name, isCustom := true,
                   modifiedAt := some now })
        ∧ loadDisplayConfig
            { st with overrides := setKey name content st.overrides } name
            = .ok content) := by
  constructor
  · cases h : safeLoad content <;> simp [saveDisplayConfig, h]
  · intro y hy
    refine ⟨by simp [saveDisplayConfig, hy], ?_⟩
    simp [loadDisplayConfig, resolveConfig, setKey, List.lookup]

/-- C1 witness: a concrete save through the concrete loader fragment. -/
theorem save_validates_yaml_only_w :
    safeLoadEx "foo: bar" = some (.map [("foo", .str "bar")])
    ∧ saveDisplayConfig safeLoadEx ⟨[("d", "orig")], []⟩ "d" "foo: bar" 3
        = .ok (⟨[("d", "orig")], [("d", "foo: bar")]⟩, ⟨"d", true, some 3⟩) := by
  have h := (save_validates_yaml_only safeLoadEx ⟨[("d", "orig")], []⟩ "d"
      "foo: bar" 3).2 (.map [("foo", .str "bar")]) rfl
  exact ⟨rfl, h.1⟩

/-- C1 counterexample: "foo: bar" is well-formed YAML that fails both the
DisplayConfig structural checks and the ProfileModel invariants, yet save
succeeds and writes it into the override tier instead of failing with
InvalidConfig. -/
theorem save_skips_validation_counterexample :
    saveDisplayConfig safeLoadEx ⟨[], []⟩ "mydisplay" "foo: bar" 7
        = .ok (⟨[], [("mydisplay", "foo: bar")]⟩, ⟨"mydisplay", true, some 7⟩)
    ∧ safeLoadEx "foo: bar" = some (.map [("foo", .str "bar")])
    ∧ displayConfigStructValid (.map [("foo", .str "bar")]) = false
    ∧ profileModelInvariants (.map [("foo", .str "bar")]) = false :=
  ⟨rfl, rfl, rfl, rfl⟩

/-- C7: with a valid new name, a source resolving to content c, and no
override entry for the new name, duplicate copies c verbatim into the
override tier, so that load of the new name afterwards and load of the
source at duplication time both return c; and under the same valid-name,
existing-source premises, duplicate fails with AlreadyExists exactly when
the new name already has an override entry. -/
theorem duplicate_copies_verbatim (st : Store) (sourceName newName : String)
    (now : ℕ) (c : String)
    (hname : validDisplayName newName = true)
    (hsrc : resolveConfig st sourceName = some c) :
    (st.overrides.lookup newName = none →
      duplicateDisplayConfig st sourceName newName now
        = .ok ({ st with overrides := setKey newName c st.overrides },
               { displayName := newName, isCustom := true,
                 modifiedAt := some now })
      ∧ loadDisplayConfig
          { st with overrides := setKey newName c st.overrides } newName
          = .ok c
      ∧ loadDisplayConfig st sourceName = .ok c)
    ∧ (duplicateDisplayConfig st sourceName newName now
          = .error .alreadyExists
        ↔ (st.overrides.lookup newName).isSome = true) := by
  constructor
  · intro hnew
    refine ⟨by simp [duplicateDisplayConfig, hname, hsrc, hnew], ?_, ?_⟩
    · simp [loadDisplayConfig, resolveConfig, setKey, List.lookup]
    · simp [loadDisplayConfig, hsrc]
  · cases hnew : st.overrides.lookup newName <;>
      simp [duplicateDisplayConfig, hname, hsrc, hnew]

/-- C7 witness: duplicating a default-tier profile into the override tier
copies its content verbatim. -/
theorem duplicate_copies_verbatim_w :
    validDisplayName "copy" = true
    ∧ resolveConfig ⟨[("src", "CONTENT")], []⟩ "src" = some "CONTENT"
    ∧ duplicateDisplayConfig ⟨[("src", "CONTENT")], []⟩ "src" "copy" 4
        = .ok (⟨[("src", "CONTENT")], [("copy", "CONTENT")]⟩,
               ⟨"copy", true, some 4⟩)
    ∧ loadDisplayConfig ⟨[("src", "CONTENT")], [("copy", "CONTENT")]⟩ "copy"
        = .ok "CONTENT" := by
  have h := duplicate_copies_verbatim ⟨[("src", "CONTENT")], []⟩ "src" "copy"
      4 "CONTENT" (by decide) rfl
  have h2 := h.1 rfl
  exact ⟨by decide, rfl, h2.1, h2.2.1⟩

/-- C8 counterexample: the name "_" matches the identifier pattern
[A-Za-z0-9_-]+ of the spec, yet duplicate rejects it with InvalidName,
because the code strips underscores and hyphens and then requires a
non-empty alphanumeric remainder. -/
theorem duplicate_underscore_counterexample :
    specIdentPattern "_" = true
    ∧ duplicateDisplayConfig ⟨[("src", "A")], []⟩ "src" "_" 0
        = .error .invalidName :=
  ⟨by decide, rfl⟩

/-- C8 (amended): for ASCII names, the code accepts a name exactly when it
matches the identifier pattern AND contains at least one alphanumeric
character (so names made only of underscores and hyphens are rejected
although the pattern matches them). When the name is rejected, duplicate
fails with InvalidName before any storage access (the result does not
depend on the store); when it is accepted, duplicate never fails with
InvalidName; and import applies the same validation to the name derived
from the filename. -/
theorem name_validation_amended (newName : String)
    (_hascii : ∀ c ∈ newName.data, c.toNat < 128) :
    (validDisplayName newName
        = (specIdentPattern newName && newName.data.any asciiAlnum))
    ∧ (validDisplayName newName = false →
        ∀ st : Store, ∀ sourceName : String, ∀ now : ℕ,
          duplicateDisplayConfig st sourceName newName now
            = .error .invalidName)
    ∧ (validDisplayName newName = true →
        ∀ st : Store, ∀ sourceName : String, ∀ now : ℕ,
          duplicateDisplayConfig st sourceName newName now
            ≠ .error .invalidName)
    ∧ (∀ safeLoad st content overwrite now filename,
        filename.endsWith ".yaml" = true →
        filename.dropRight 5 = newName →
        validDisplayName newName = false →
        importDisplayConfig safeLoad st filename content overwrite now
          = .error .invalidName) := by
  refine ⟨?_, ?_, ?_, ?_⟩
  · rw [Bool.eq_iff_iff]
    simp only [validDisplayName, specIdentPattern, pyIsAlnum,
      Bool.and_eq_true, Bool.not_eq_true', List.isEmpty_iff,
      List.isEmpty_eq_false, List.all_eq_true, List.any_eq_true,
      List.mem_filter, Bool.or_eq_true, beq_iff_eq, bne_iff_ne, ne_eq,
      List.filter_eq_nil_iff, not_forall, not_not]
    constructor
    · rintro ⟨hne, ⟨a, ha, hq⟩, hall⟩
      refine ⟨⟨hne, ?_⟩, ⟨a, ha, hall a ⟨ha, hq⟩⟩⟩
      intro c hc
      by_cases hu : c = '_'
      · exact Or.inl (Or.inr hu)
      · by_cases hh : c = '-'
        · exact Or.inr hh
        · exact Or.inl (Or.inl (hall c ⟨hc, hu, hh⟩))
    · rintro ⟨⟨hne, hall⟩, ⟨a, ha, halnum⟩⟩
      have ha1 : a ≠ '_' := by
        intro h; rw [h] at halnum; exact absurd halnum (by decide)
      have ha2 : a ≠ '-' := by
        intro h; rw [h] at halnum; exact absurd halnum (by decide)
      refine ⟨hne, ⟨a, ha, ha1, ha2⟩, ?_⟩
      rintro c ⟨hc, hu, hh⟩
      rcases hall c hc with (h | h) | h
      · exact h
      · exact absurd h hu
      · exact absurd h hh
  · intro hinv st sourceName now
    simp [duplicateDisplayConfig, hinv]
  · intro hval st sourceName now
    cases hr : resolveConfig st sourceName with
    | none => simp [duplicateDisplayConfig, hval, hr]
    | some c =>
        cases hnew : (st.overrides.lookup newName).isSome <;>
          simp [duplicateDisplayConfig, hval, hr, hnew]
  · intro safeLoad st content overwrite now filename hends hdrop hinv
    simp [importDisplayConfig, hends, hdrop, hinv]

/-- C8 witness: the name "_" instantiates the amended validation account. -/
theorem name_validation_amended_w :
    validDisplayName "_" = (specIdentPattern "_" && "_".data.any asciiAlnum)
    ∧ duplicateDisplayConfig ⟨[], []⟩ "s" "_" 0 = .error .invalidName := by
  have h := name_validation_amended "_" (by decide)
  exact ⟨h.1, h.2.1 (by decide) ⟨[], []⟩ "s" 0⟩

/-- C5: with a non-empty tag filter, an image passes the filter exactly
when it is in the collection and one of its normalized tags equals one of
the parsed filter terms (OR semantics, both sides lowered); and when the
filtered set is empty on a non-empty collection, both the Next endpoint
and the Random endpoint fail with the no-images-match NotFound instead of
reaching their selection step. -/
theorem tag_filter_or_semantics (images : List ImageRec) (tagsParam : String)
    (hne : tagsParam.data.isEmpty = false) :
    (∀ img, img ∈ filterImagesByTags images tagsParam ↔
        img ∈ images ∧ ∃ t ∈ normalizeTags img.tags,
          t ∈ parseTagsParam tagsParam)
    ∧ (filterImagesByTags images tagsParam = [] → images ≠ [] →
        (∀ i : ℤ, selectNextImage images tagsParam i = .error .notFound)
        ∧ randomEligibleImages images tagsParam = .error .notFound) := by
  constructor
  · intro img
    simp only [filterImagesByTags, hne, Bool.false_eq_true, if_false,
      List.mem_filter, List.any_eq_true, List.contains, List.elem_iff]
    tauto
  · intro hfil hni
    have h1 : images.isEmpty = false := by
      simp [List.isEmpty_eq_false, hni]
    have h2 : eligibleImages images tagsParam = [] := by
      simp [eligibleImages, hne, hfil]
    constructor
    · intro i
      simp [selectNextImage, h1, h2]
    · simp [randomEligibleImages, h1, h2]

/-- C5 witness: the filter sunset against a collection tagged only winter
and city yields NotFound on both endpoints, with no crash. -/
theorem tag_filter_or_semantics_w :
    ("sunset".data.isEmpty = false)
    ∧ filterImagesByTags [imgRecW] "sunset" = []
    ∧ selectNextImage [imgRecW] "sunset" 0 = .error .notFound
    ∧ randomEligibleImages [imgRecW] "sunset" = .error .notFound := by
  have h := (tag_filter_or_semantics [imgRecW] "sunset" (by decide)).2
      (by decide) (by decide)
  exact ⟨by decide, by decide, h.1 0, h.2⟩

/-- C6: for any current_index and any collection whose eligible list (tag
filtered when a filter is supplied, else in collaborator order) has an
entry at position (current_index + 1) mod length, the Next policy returns
exactly that entry together with that wrapped index. -/
theorem next_policy_formula (images : List ImageRec) (tagsParam : String)
    (i : ℤ) (img : ImageRec)
    (hne : images ≠ [])
    (himg : (eligibleImages images tagsParam)[((i + 1)
        % ((eligibleImages images tagsParam).length : ℤ)).toNat]?
        = some img) :
    selectNextImage images tagsParam i
      = .ok (img, ((i + 1)
          % ((eligibleImages images tagsParam).length : ℤ)).toNat) := by
  have hEl : (eligibleImages images tagsParam).isEmpty = false := by
    rw [List.isEmpty_eq_false]
    intro h
    rw [h] at himg
    simp at himg
  have h1 : images.isEmpty = false := by
    simp [List.isEmpty_eq_false, hne]
  simp [selectNextImage, h1, hEl, himg]

/-- C6 witness: three eligible images, no tag filter, current_index = 2;
the next selection wraps to index 0 and returns the first image. -/
theorem next_policy_formula_w :
    selectNextImage [imgRecA, imgRecB, imgRecC] "" 2 = .ok (imgRecA, 0) := by
  have h := next_policy_formula [imgRecA, imgRecB, imgRecC] "" 2 imgRecA
      (by decide) (by decide)
  exact h

/-- C10: the Next selection never raises an IndexError, for every
current_index including negative ones: whenever it returns an index, that
index is a valid position of the eligible list (Python % with a positive
modulus is never negative). -/
theorem next_index_in_range (images : List ImageRec) (tagsParam : String)
    (i : ℤ) :
    selectNextImage images tagsParam i ≠ .error .indexError
    ∧ (∀ img n, selectNextImage images tagsParam i = .ok (img, n) →
        n < (eligibleImages images tagsParam).length) := by
  by_cases h1 : images.isEmpty
  · simp [selectNextImage, h1]
  · by_cases h2 : (eligibleImages images tagsParam).isEmpty
    · simp [selectNextImage, h1, h2]
    · have hlen : 0 < (eligibleImages images tagsParam).length := by
        rw [List.isEmpty_iff] at h2
        exact List.length_pos.mpr h2
      have hlt : ((i + 1)
          % ((eligibleImages images tagsParam).length : ℤ)).toNat
          < (eligibleImages images tagsParam).length := by
        have hmod : (i + 1) % ((eligibleImages images tagsParam).length : ℤ)
            < ((eligibleImages images tagsParam).length : ℤ) :=
          Int.emod_lt_of_pos _ (by exact_mod_cast hlen)
        have hnn : 0 ≤ (i + 1)
            % ((eligibleImages images tagsParam).length : ℤ) :=
          Int.emod_nonneg _ (by exact_mod_cast hlen.ne')
        omega
      have himg := List.getElem?_eq_getElem hlt
      constructor
      · simp [selectNextImage, h1, h2, himg]
      · intro img2 n hok
        simp only [selectNextImage, h1, h2, himg] at hok
        rw [if_neg (by simp [h1]), if_neg (by simp [h2])] at hok
        simp only [himg, Except.ok.injEq, Prod.mk.injEq] at hok
        omega

/-- C10 witness: a negative current_index on a singleton gallery indexes
safely. -/
theorem next_index_in_range_w :
    selectNextImage [imgRecA] "" (-5) ≠ .error .indexError :=
  (next_index_in_range [imgRecA] "" (-5)).1

/-- C9: with gamma == 1.0 the pipeline output is pixel-identical to the
pipeline with the gamma stage removed entirely; the result does not depend
on the numeric gamma pass at all (no per-pixel pass runs), and
apply_gamma_correction itself is the identity at gamma == 1.0. -/
theorem gamma_one_skips_gamma (fitF resample : Img → ℕ → ℕ → Img)
    (gammaPass gammaPass2 : RGB → RGB) (dither resize crop : Bool)
    (width height : ℕ) (palette : List RGB) (src : Img) :
    processImage fitF resample gammaPass dither resize crop width height
        palette 1 src
      = processImageNoGamma fitF resample dither resize crop width height
          palette src
    ∧ processImage fitF resample gammaPass dither resize crop width height
        palette 1 src
      = processImage fitF resample gammaPass2 dither resize crop width height
          palette 1 src
    ∧ (∀ img : Img, applyGammaCorrection 1 gammaPass img = img) := by
  refine ⟨?_, ?_, ?_⟩ <;>
    simp [processImage, processImageNoGamma, applyGammaCorrection]

/-- Helper: the running minimum of the nearest-color fold stays inside the
candidate list extended with the seed. -/
theorem nearest_fold_mem (c : RGB) (ts : List RGB) (t : RGB) :
    ts.foldl (fun best cand =>
        if dist2 cand c < dist2 best c then cand else best) t ∈ t :: ts := by
  induction ts generalizing t with
  | nil => simp
  | cons a as ih =>
      simp only [List.foldl_cons]
      by_cases hd : dist2 a c < dist2 t c
      · rw [if_pos hd]
        exact List.mem_cons_of_mem t (ih a)
      · rw [if_neg hd]
        rcases List.mem_cons.mp (ih t) with h | h
        · rw [h]; exact List.mem_cons_self t _
        · exact List.mem_cons_of_mem t (List.mem_cons_of_mem a h)

/-- Helper: the nearest color is one of the table colors. -/
theorem nearestColor_mem (c : RGB) (table : List RGB) (h : table ≠ []) :
    nearestColor c table ∈ table := by
  cases table with
  | nil => exact absurd rfl h
  | cons t ts => exact nearest_fold_mem c ts t

/-- Helper: every pixel emitted by one dithered row comes from the table. -/
theorem fsRow_mem (table : List RGB) (hne : table ≠ []) :
    ∀ (ps : List RGB) (errs : List Err3) (pBL pB : Err3) (c : RGB),
      c ∈ (fsRow table ps errs pBL pB).1 → c ∈ table := by
  intro ps
  induction ps with
  | nil =>
      intro errs pBL pB c hc
      simp [fsRow] at hc
  | cons p ps ih =>
      intro errs pBL pB c hc
      simp only [fsRow] at hc
      rcases List.mem_cons.mp hc with rfl | hc
      · exact nearestColor_mem _ _ hne
      · exact ih _ _ _ _ hc

/-- Helper: every pixel of the dithered raster comes from the table. -/
theorem fsRows_mem (table : List RGB) (hne : table ≠ []) :
    ∀ (rows : List (List RGB)) (errCur : List Err3) (row : List RGB) (c : RGB),
      row ∈ fsRows table rows errCur → c ∈ row → c ∈ table := by
  intro rows
  induction rows with
  | nil =>
      intro errCur row c hrow _
      simp [fsRows] at hrow
  | cons r rs ih =>
      intro errCur row c hrow hc
      simp only [fsRows] at hrow
      rcases List.mem_cons.mp hrow with rfl | h
      · exact fsRow_mem table hne r errCur _ _ c hc
      · exact ih _ _ _ h hc

/-- Helper: every quantized pixel, dithered or not, comes from the table. -/
theorem quantizeRows_mem (table : List RGB) (hne : table ≠ []) (dither : Bool)
    (rows : List (List RGB)) (row : List RGB) (c : RGB)
    (hrow : row ∈ quantizeRows table dither rows) (hc : c ∈ row) :
    c ∈ table := by
  cases dither with
  | true =>
      exact fsRows_mem table hne rows [] row c
        (by simpa [quantizeRows] using hrow) hc
  | false =>
      simp only [quantizeRows, Bool.false_eq_true, if_false] at hrow
      rcases List.mem_map.mp hrow with ⟨r0, _, rfl⟩
      rcases List.mem_map.mp hc with ⟨p, _, rfl⟩
      exact nearestColor_mem _ _ hne

/-- C2 (amended): every color of the output bitmap lies in the padded
256-slot palette table, that is, it is a configured palette color or the
black of the zero padding; in particular the output colors are a subset of
the configured palette whenever the palette itself contains black. This
holds for both dithered and non-dithered runs and for every geometry and
gamma setting. -/
theorem output_colors_in_padded_palette (fitF resample : Img → ℕ → ℕ → Img)
    (gammaPass : RGB → RGB) (dither resize crop : Bool) (width height : ℕ)
    (palette : List RGB) (gamma : ℚ) (src : Img) (row : List RGB) (c : RGB)
    (hpal : palette ≠ [])
    (hrow : row ∈ processImage fitF resample gammaPass dither resize crop
        width height palette gamma src)
    (hc : c ∈ row) :
    (c ∈ palette ∨ c = (0, 0, 0))
    ∧ ((0, 0, 0) ∈ palette → c ∈ palette) := by
  have hne : buildPaletteTable palette ≠ [] := by
    cases palette with
    | nil => exact absurd rfl hpal
    | cons p ps => simp [buildPaletteTable]
  have htab : c ∈ buildPaletteTable palette :=
    quantizeRows_mem _ hne dither _ row c hrow hc
  rcases List.mem_append.mp htab with h | h
  · exact ⟨Or.inl h, fun _ => h⟩
  · have hb : c = (0, 0, 0) := List.eq_of_mem_replicate h
    exact ⟨Or.inr hb, fun hblack => hb ▸ hblack⟩

/-- Helper: folding the nearest-color step over a constant candidate list
either switches to that candidate once (when strictly closer) or keeps the
seed. -/
theorem foldl_nearest_replicate (c b t : RGB) (n : ℕ) :
    (List.replicate n b).foldl (fun best cand =>
        if dist2 cand c < dist2 best c then cand else best) t
      = if dist2 b c < dist2 t c then (if n = 0 then t else b) else t := by
  induction n generalizing t with
  | zero => simp
  | succ n ih =>
      simp only [List.replicate_succ, List.foldl_cons]
      by_cases hd : dist2 b c < dist2 t c
      · rw [if_pos hd, if_pos hd, ih b, if_neg (lt_irrefl _),
          if_neg (Nat.succ_ne_zero n)]
      · rw [if_neg hd, if_neg hd, ih t, if_neg hd]

/-- Helper: a black pixel quantizes to black against the padded table of
the palette black, white. -/
theorem nearest_black_blackwhite :
    nearestColor (0, 0, 0)
        ((0, 0, 0) :: (255, 255, 255) :: List.replicate 254 (0, 0, 0))
      = (0, 0, 0) := by
  simp only [nearestColor, List.foldl_cons]
  rw [if_neg (by decide), foldl_nearest_replicate, if_neg (by decide)]

/-- Helper: the dithered pipeline output on the concrete black pixel and
the black-white palette. -/
theorem processImage_img1_blackwhite :
    processImage constImg constImg id true false false 1 1
        [(0, 0, 0), (255, 255, 255)] 1 img1 = [[(0, 0, 0)]] := by
  show fsRows ((0, 0, 0) :: (255, 255, 255) :: List.replicate 254 (0, 0, 0))
      [[(0, 0, 0)]] [] = [[(0, 0, 0)]]
  simp only [fsRows, fsRow, List.headD, List.tail_nil]
  have haddErr : addErr (0, 0, 0) (0, 0, 0) = (0, 0, 0) := rfl
  rw [haddErr, nearest_black_blackwhite]

/-- C2 witness: a dithered run on a two-color palette containing black. -/
theorem output_colors_in_padded_palette_w :
    ([((0, 0, 0) : RGB), (255, 255, 255)] ≠ ([] : List RGB))
    ∧ [((0, 0, 0) : RGB)] ∈ processImage constImg constImg id true false false
        1 1 [(0, 0, 0), (255, 255, 255)] 1 img1
    ∧ (((0, 0, 0) : RGB) ∈ [((0, 0, 0) : RGB), (255, 255, 255)]
        ∨ (0, 0, 0) = ((0, 0, 0) : RGB)) := by
  have hrow : [((0, 0, 0) : RGB)] ∈ processImage constImg constImg id true
      false false 1 1 [(0, 0, 0), (255, 255, 255)] 1 img1 := by
    rw [processImage_img1_blackwhite]
    exact List.mem_singleton.mpr rfl
  have h := output_colors_in_padded_palette constImg constImg id true false
      false 1 1 [(0, 0, 0), (255, 255, 255)] 1 img1 [(0, 0, 0)] (0, 0, 0)
      (by decide) hrow (by decide)
  exact ⟨by decide, hrow, h.1⟩

/-- C2 counterexample: with the valid single-color palette white and a
black source pixel, the non-dithered output is black, a color outside the
configured palette: the zero padding of the 256-slot table is reachable,
so the output color set is not always a subset of the palette. -/
theorem output_palette_subset_counterexample :
    processImage constImg constImg id false false false 1 1
        [(255, 255, 255)] 1 img1 = [[(0, 0, 0)]]
    ∧ ((0, 0, 0) : RGB) ∉ [((255, 255, 255) : RGB)] := by
  constructor
  · have hnear : nearestColor (0, 0, 0)
        ((255, 255, 255) :: List.replicate 255 (0, 0, 0)) = (0, 0, 0) := by
      simp only [nearestColor]
      rw [foldl_nearest_replicate, if_pos (by decide),
        if_neg (by decide)]
    show ([[((0, 0, 0) : RGB)]]).map (List.map (fun p => nearestColor p
        ((255, 255, 255) :: List.replicate 255 (0, 0, 0)))) = [[(0, 0, 0)]]
    simp only [List.map_cons, List.map_nil]
    rw [hnear]
  · decide

/-- Helper: thumbnail keeps the source size whenever it already fits. -/
theorem thumbnailSize_fits (sw sh tw th : ℕ) (h : sw ≤ tw ∧ sh ≤ th) :
    thumbnailSize sw sh tw th = (sw, sh) := by
  simp [thumbnailSize, h]

/-- Helper: the rounded free dimension, clamped below by 1, stays within a
bound dominating its ceiling. -/
theorem toNat_max_bounds (n : ℚ) (tw : ℕ) (htw : 0 < tw) (hn : n ≤ (tw : ℚ))
    (x : ℤ) (hx : x = ⌊n⌋ ∨ x = ⌈n⌉) :
    (max x 1).toNat ≤ tw ∧ 0 < (max x 1).toNat := by
  have hce : ⌈n⌉ ≤ (tw : ℤ) := Int.ceil_le.mpr (by exact_mod_cast hn)
  have hxle : x ≤ (tw : ℤ) := by
    rcases hx with rfl | rfl
    · exact le_trans (Int.floor_le_ceil n) hce
    · exact hce
  have h2 : max x 1 ≤ (tw : ℤ) := max_le hxle (by exact_mod_cast htw)
  have h1 : (1 : ℤ) ≤ max x 1 := le_max_right x 1
  omega

/-- Helper: the thumbnail size always fits within the target box and both
its dimensions are positive. -/
theorem thumbnailSize_bounds (sw sh tw th : ℕ) (hsw : 0 < sw) (hsh : 0 < sh)
    (htw : 0 < tw) (hth : 0 < th) :
    (thumbnailSize sw sh tw th).1 ≤ tw ∧ (thumbnailSize sw sh tw th).2 ≤ th
    ∧ 0 < (thumbnailSize sw sh tw th).1
    ∧ 0 < (thumbnailSize sw sh tw th).2 := by
  have hshq : (0 : ℚ) < sh := by exact_mod_cast hsh
  have hthq : (0 : ℚ) < th := by exact_mod_cast hth
  have haspect : (0 : ℚ) < (sw : ℚ) / sh :=
    div_pos (by exact_mod_cast hsw) hshq
  by_cases hfit : sw ≤ tw ∧ sh ≤ th
  · simp only [thumbnailSize, if_pos hfit]
    exact ⟨hfit.1, hfit.2, hsw, hsh⟩
  · by_cases hcond : (tw : ℚ) / (th : ℚ) ≥ (sw : ℚ) / (sh : ℚ)
    · simp only [thumbnailSize, if_neg hfit, if_pos hcond]
      have hn : (th : ℚ) * ((sw : ℚ) / sh) ≤ (tw : ℚ) := by
        calc (th : ℚ) * ((sw : ℚ) / sh) ≤ (th : ℚ) * ((tw : ℚ) / th) :=
              mul_le_mul_of_nonneg_left hcond (le_of_lt hthq)
          _ = (tw : ℚ) := by field_simp
      refine ⟨?_, le_refl th, ?_, hth⟩
      · exact (toNat_max_bounds _ tw htw hn _ (ite_eq_or_eq _ _ _)).1
      · exact (toNat_max_bounds _ tw htw hn _ (ite_eq_or_eq _ _ _)).2
    · simp only [thumbnailSize, if_neg hfit, if_neg hcond]
      have hlt : (tw : ℚ) / th < (sw : ℚ) / sh := lt_of_not_ge hcond
      have hn : (tw : ℚ) / ((sw : ℚ) / sh) ≤ (th : ℚ) := by
        rw [div_le_iff₀ haspect]
        have h3 : (tw : ℚ) < (sw : ℚ) / sh * th := (div_lt_iff₀ hthq).mp hlt
        have h4 : (sw : ℚ) / sh * th = (th : ℚ) * ((sw : ℚ) / sh) :=
          mul_comm _ _
        linarith
      refine ⟨le_refl tw, ?_, htw, ?_⟩
      · exact (toNat_max_bounds _ th hth hn _ (ite_eq_or_eq _ _ _)).1
      · exact (toNat_max_bounds _ th hth hn _ (ite_eq_or_eq _ _ _)).2

/-- Helper: the letterbox pixel formula, spelled out. -/
theorem letterbox_px (resample : Img → ℕ → ℕ → Img) (src : Img)
    (tw th x y : ℕ) :
    (letterbox resample src tw th).px x y
      = (if (tw - (letterboxScaled resample src tw th).w) / 2 ≤ x
            ∧ x < (tw - (letterboxScaled resample src tw th).w) / 2
                + (letterboxScaled resample src tw th).w
            ∧ (th - (letterboxScaled resample src tw th).h) / 2 ≤ y
            ∧ y < (th - (letterboxScaled resample src tw th).h) / 2
                + (letterboxScaled resample src tw th).h
         then (letterboxScaled resample src tw th).px
            (x - (tw - (letterboxScaled resample src tw th).w) / 2)
            (y - (th - (letterboxScaled resample src tw th).h) / 2)
         else (0, 0, 0)) := rfl

/-- C3 (amended): letterbox mode never upscales. The canvas always has
dimensions exactly (width, height); when the source already fits inside
the target box the thumbnail step keeps it at its original size (no
uniform upscaling by min(width/src_w, height/src_h)) and it is pasted
centered and unscaled at ((width - src_w) / 2, (height - src_h) / 2);
otherwise the image is shrunk to a positive size fitting the box. Every
canvas pixel outside the pasted rectangle is opaque black. -/
theorem letterbox_geometry (resample : Img → ℕ → ℕ → Img) (src : Img)
    (tw th : ℕ) (hsw : 0 < src.w) (hsh : 0 < src.h) (htw : 0 < tw)
    (hth : 0 < th)
    (hres : ∀ a b : ℕ, 0 < a → 0 < b →
        (resample src a b).w = a ∧ (resample src a b).h = b) :
    (letterbox resample src tw th).w = tw
    ∧ (letterbox resample src tw th).h = th
    ∧ (src.w ≤ tw ∧ src.h ≤ th →
        thumbnailSize src.w src.h tw th = (src.w, src.h))
    ∧ (thumbnailSize src.w src.h tw th).1 ≤ tw
    ∧ (thumbnailSize src.w src.h tw th).2 ≤ th
    ∧ 0 < (thumbnailSize src.w src.h tw th).1
    ∧ 0 < (thumbnailSize src.w src.h tw th).2
    ∧ (∀ x y : ℕ,
        (x < (tw - (thumbnailSize src.w src.h tw th).1) / 2
          ∨ (tw - (thumbnailSize src.w src.h tw th).1) / 2
              + (thumbnailSize src.w src.h tw th).1 ≤ x
          ∨ y < (th - (thumbnailSize src.w src.h tw th).2) / 2
          ∨ (th - (thumbnailSize src.w src.h tw th).2) / 2
              + (thumbnailSize src.w src.h tw th).2 ≤ y) →
        (letterbox resample src tw th).px x y = (0, 0, 0))
    ∧ (src.w ≤ tw → src.h ≤ th → ∀ x y : ℕ,
        (tw - src.w) / 2 ≤ x → x < (tw - src.w) / 2 + src.w →
        (th - src.h) / 2 ≤ y → y < (th - src.h) / 2 + src.h →
        (letterbox resample src tw th).px x y
          = src.px (x - (tw - src.w) / 2) (y - (th - src.h) / 2)) := by
  have hb := thumbnailSize_bounds src.w src.h tw th hsw hsh htw hth
  have hscw : (letterboxScaled resample src tw th).w
      = (thumbnailSize src.w src.h tw th).1 := by
    rw [letterboxScaled]
    by_cases he : thumbnailSize src.w src.h tw th = (src.w, src.h)
    · rw [if_pos he, he]
    · rw [if_neg he]
      exact (hres _ _ hb.2.2.1 hb.2.2.2).1
  have hsch : (letterboxScaled resample src tw th).h
      = (thumbnailSize src.w src.h tw th).2 := by
    rw [letterboxScaled]
    by_cases he : thumbnailSize src.w src.h tw th = (src.w, src.h)
    · rw [if_pos he, he]
    · rw [if_neg he]
      exact (hres _ _ hb.2.2.1 hb.2.2.2).2
  refine ⟨rfl, rfl, fun h => thumbnailSize_fits _ _ _ _ h, hb.1, hb.2.1,
    hb.2.2.1, hb.2.2.2, ?_, ?_⟩
  · intro x y hout
    rw [letterbox_px, hscw, hsch, if_neg]
    rintro ⟨h1, h2, h3, h4⟩
    rcases hout with h | h | h | h <;> omega
  · intro hwle hhle x y hx1 hx2 hy1 hy2
    have he : thumbnailSize src.w src.h tw th = (src.w, src.h) :=
      thumbnailSize_fits _ _ _ _ ⟨hwle, hhle⟩
    have hsceq : letterboxScaled resample src tw th = src := by
      rw [letterboxScaled, if_pos he]
    rw [letterbox_px, hsceq, if_pos ⟨hx1, hx2, hy1, hy2⟩]

/-- C3 witness: a 100 x 100 source letterboxed onto an 800 x 480 canvas
keeps its size and the canvas has the target dimensions. -/
theorem letterbox_geometry_w :
    (letterbox resampleStub img100 800 480).w = 800
    ∧ (letterbox resampleStub img100 800 480).h = 480
    ∧ thumbnailSize 100 100 800 480 = (100, 100)
    ∧ (letterbox resampleStub img100 800 480).px 0 0 = (0, 0, 0) := by
  have h := letterbox_geometry resampleStub img100 800 480 (by decide)
      (by decide) (by decide) (by decide)
      (fun a b _ _ => ⟨rfl, rfl⟩)
  refine ⟨h.1, h.2.1, h.2.2.1 (by decide), ?_⟩
  exact h.2.2.2.2.2.2.2.1 0 0 (by rw [h.2.2.1 (by decide)]; left; decide)

/-- C3 counterexample: a 100 x 100 source into an 800 x 480 target. The
claimed uniform scale factor min(800/100, 480/100) would enlarge the image
to width 480, but thumbnail keeps it at 100 x 100 (it never upscales), so
the pixel at (170, 240), inside the region the claimed 480 x 480 centered
content would cover, is letterbox black rather than source content. -/
theorem letterbox_upscale_counterexample :
    thumbnailSize 100 100 800 480 = (100, 100)
    ∧ (min ((800 : ℚ) / 100) ((480 : ℚ) / 100)) * 100 = 480
    ∧ ((100 : ℚ) ≠ 480)
    ∧ (letterbox resampleStub img100 800 480).px 170 240 = (0, 0, 0)
    ∧ (letterbox resampleStub img100 800 480).px 400 240 = (7, 7, 7) := by
  refine ⟨rfl, by norm_num, by norm_num, ?_, ?_⟩
  · rw [letterbox_px, if_neg]
    rintro ⟨h1, _, _, _⟩
    revert h1
    decide
  · rw [letterbox_px, if_pos]
    · rfl
    · refine ⟨by decide, by decide, by decide, by decide⟩

/-- C4 (amended): for every positive gamma and channel value 0-255, the
gamma path maps v to the truncation (floor) of (v/255)^(1/gamma) * 255,
not to its rounding; the value already lies in [0, 255], so the uint8
conversion neither wraps nor needs a clamp. -/
theorem gamma_truncates_not_rounds (gamma : ℝ) (v : ℕ) (hg : 0 < gamma)
    (hv : v ≤ 255) :
    (gammaChannel gamma v : ℤ) = ⌊(((v : ℝ) / 255) ^ (1 / gamma)) * 255⌋
    ∧ gammaChannel gamma v ≤ 255 := by
  have hbase0 : (0 : ℝ) ≤ (v : ℝ) / 255 := by positivity
  have hbase1 : (v : ℝ) / 255 ≤ 1 := by
    rw [div_le_one (by norm_num)]
    exact_mod_cast hv
  have hexp : (0 : ℝ) ≤ 1 / gamma := by positivity
  have hX0 : 0 ≤ (((v : ℝ) / 255) ^ (1 / gamma)) * 255 :=
    mul_nonneg (Real.rpow_nonneg hbase0 _) (by norm_num)
  have hX255 : (((v : ℝ) / 255) ^ (1 / gamma)) * 255 ≤ 255 := by
    have h1 : ((v : ℝ) / 255) ^ (1 / gamma) ≤ 1 :=
      Real.rpow_le_one hbase0 hbase1 hexp
    nlinarith
  have hfl0 : 0 ≤ ⌊(((v : ℝ) / 255) ^ (1 / gamma)) * 255⌋ :=
    Int.floor_nonneg.mpr hX0
  have hfl255 : ⌊(((v : ℝ) / 255) ^ (1 / gamma)) * 255⌋ ≤ 255 := by
    calc ⌊(((v : ℝ) / 255) ^ (1 / gamma)) * 255⌋ ≤ ⌊(255 : ℝ)⌋ :=
          Int.floor_le_floor hX255
      _ = 255 := by norm_num
  have hdef : gammaChannel gamma v
      = (⌊(((v : ℝ) / 255) ^ (1 / gamma)) * 255⌋).toNat % 256 := rfl
  constructor
  · rw [hdef]
    push_cast
    omega
  · rw [hdef]
    omega

/-- C4 witness: gamma 2 at full white stays within the account above. -/
theorem gamma_truncates_not_rounds_w :
    (gammaChannel 2 255 : ℤ)
        = ⌊((((255 : ℕ) : ℝ) / 255) ^ (1 / (2 : ℝ))) * 255⌋
    ∧ gammaChannel 2 255 ≤ 255 :=
  gamma_truncates_not_rounds 2 255 (by norm_num) (le_refl 255)

/-- C4 counterexample: at gamma 0.5 and channel value 20 the exact value is
(20/255)^2 * 255 = 80/51 = 1.568...; the code truncates it to 1 while the
claimed round-and-clamp map yields 2. -/
theorem gamma_rounding_counterexample :
    gammaChannel (1 / 2) 20 = 1 ∧ gammaChannelClaimed (1 / 2) 20 = 2 := by
  have hval : ((((20 : ℕ) : ℝ)) / 255) ^ ((1 : ℝ) / (1 / 2)) * 255
      = 80 / 51 := by
    have hexp : (1 : ℝ) / (1 / 2) = ((2 : ℕ) : ℝ) := by norm_num
    rw [hexp, Real.rpow_natCast]
    push_cast
    ring_nf
  constructor
  · have hdef : gammaChannel (1 / 2) 20
        = (⌊((((20 : ℕ) : ℝ)) / 255) ^ ((1 : ℝ) / (1 / 2)) * 255⌋).toNat
            % 256 := rfl
    rw [hdef, hval]
    have hfl : ⌊(80 : ℝ) / 51⌋ = 1 := by
      norm_num [Int.floor_eq_iff]
    rw [hfl]
    decide
  · have hdef : gammaChannelClaimed (1 / 2) 20
        = max 0 (min 255
            (round (((((20 : ℕ) : ℝ)) / 255) ^ ((1 : ℝ) / (1 / 2)) * 255)))
        := rfl
    rw [hdef, hval]
    have hr : round ((80 : ℝ) / 51) = 2 := by
      rw [round_eq,
        show (80 : ℝ) / 51 + 1 / 2 = 211 / 102 by norm_num]
      norm_num [Int.floor_eq_iff]
    rw [hr]
    decide

end EinkGallery
